import Mathlib

/-!
Shallow embedding of the jpeg-recompress program (ssim.go).

The program has two parts: an SSIM-style similarity metric built from global
image statistics (mean, stdev, covariance of luminance), and an adaptive
quality-search loop in `main` that repeatedly re-encodes the image, tracks a
best and a fallback candidate, and finally selects an output.

Modelling choices:
 - an image is a width, a height and a pixel grid of 8-bit RGB values;
   `getPixVal` extracts the R channel exactly as the Go code does
   (`r, _, _, _ := c.RGBA(); float64(r >> 8)`), which on full-alpha RGB and
   on grayscale pixels yields the stored 8-bit value;
 - floating-point arithmetic is modelled as exact arithmetic: sums, means and
   covariances live in `ℚ`; `stdev` and `ssim` live in `ℝ` because of the
   square root;
 - the external JPEG encoder/decoder is an explicit `Codec` parameter
   (it is an external collaborator of the program);
 - Go `int` division truncates toward zero, which is `Int.tdiv`;
 - the filesystem effects of `save` are modelled by an explicit environment
   recording whether file creation fails and how many bytes a write persists.
-/

namespace JR

/-- An image: width, height, and an 8-bit RGB pixel grid (Go `image.Image`
restricted to what the program reads from it). -/
structure CImg where
  w : Nat
  h : Nat
  pix : Nat → Nat → Nat × Nat × Nat

/-- Go `getPixVal`: the R channel of the pixel (for full-alpha RGB colors,
`c.RGBA()` returns `R*0x101` and the code shifts right by 8, recovering R;
for grayscale pixels it recovers the luminance byte). -/
def getPixVal (c : Nat × Nat × Nat) : Nat := c.1

/-- Go `color.GrayModel.Convert` luminance: 8-bit channels are widened to
16 bits (`*0x101 = *257`), then `y = (19595 r + 38470 g + 7471 b + 2^15) >> 24`. -/
def grayY (c : Nat × Nat × Nat) : Nat :=
  (19595 * (c.1 * 257) + 38470 * (c.2.1 * 257) + 7471 * (c.2.2 * 257) + 2 ^ 15) / 2 ^ 24

/-- Go `convertToGray`: same dimensions, every pixel replaced by its gray value. -/
def convertToGray (originalImg : CImg) : CImg :=
  { w := originalImg.w, h := originalImg.h
    pix := fun x y =>
      let g := grayY (originalImg.pix x y)
      (g, g, g) }

/-- Go `equalDim`: both width and height agree. -/
def equalDim (img1 img2 : CImg) : Bool :=
  (img1.w == img2.w) && (img1.h == img2.h)

/-- Sum of luminance values over all pixels (the loop
`for x < w, for y < h, sum += getPixVal(img.At(x,y))`). -/
def pixSum (img : CImg) : ℚ :=
  ∑ x ∈ Finset.range img.w, ∑ y ∈ Finset.range img.h, (getPixVal (img.pix x y) : ℚ)

/-- Go `mean`: note the code divides by `n := float64((w*h) - 1)`,
i.e. by `N - 1`, not by `N`. -/
def mean (img : CImg) : ℚ :=
  pixSum img / ((img.w * img.h : ℚ) - 1)

/-- The sum `Σ (pix - avg)^2` appearing in Go `stdev`. -/
def sqSum (img : CImg) : ℚ :=
  ∑ x ∈ Finset.range img.w, ∑ y ∈ Finset.range img.h,
    ((getPixVal (img.pix x y) : ℚ) - mean img) ^ 2

/-- Go `stdev`: `sqrt(Σ (pix-avg)^2 / (N-1))`. -/
noncomputable def stdev (img : CImg) : ℝ :=
  Real.sqrt (((sqSum img / ((img.w * img.h : ℚ) - 1) : ℚ) : ℝ))

/-- The sum `Σ (pix1-avg1)*(pix2-avg2)` appearing in Go `covar`. -/
def covarSum (img1 img2 : CImg) : ℚ :=
  ∑ x ∈ Finset.range img1.w, ∑ y ∈ Finset.range img1.h,
    ((getPixVal (img1.pix x y) : ℚ) - mean img1) *
      ((getPixVal (img2.pix x y) : ℚ) - mean img2)

/-- Go `covar`: errors out on a dimension mismatch, otherwise divides the
cross sum by `N - 1`. -/
def covar (img1 img2 : CImg) : Except String ℚ :=
  if !(equalDim img1 img2) then Except.error "images must have same dimension"
  else Except.ok (covarSum img1 img2 / ((img1.w * img1.h : ℚ) - 1))

/-- SSIM constant `L = 255`. -/
def L : ℚ := 255

/-- SSIM constant `K1 = 0.01`. -/
def K1 : ℚ := 1 / 100

/-- SSIM constant `K2 = 0.03`. -/
def K2 : ℚ := 3 / 100

/-- SSIM constant `C1 = (K1*L)^2`. -/
def C1 : ℚ := (K1 * L) ^ 2

/-- SSIM constant `C2 = (K2*L)^2`. -/
def C2 : ℚ := (K2 * L) ^ 2

/-- Go `ssim`: on a covariance error it returns `0.0`; otherwise
`((2 avgX avgY + C1)(2 cov + C2)) / ((avgX^2 + avgY^2 + C1)(stdevX^2 + stdevY^2 + C2))`. -/
noncomputable def ssim (x y : CImg) : ℝ :=
  match covar x y with
  | Except.error _ => 0
  | Except.ok cov =>
      (((2 : ℝ) * (mean x : ℝ) * (mean y : ℝ) + (C1 : ℝ)) *
          ((2 : ℝ) * (cov : ℝ) + (C2 : ℝ))) /
        (((mean x : ℝ) ^ 2 + (mean y : ℝ) ^ 2 + (C1 : ℝ)) *
          (stdev x ^ 2 + stdev y ^ 2 + (C2 : ℝ)))

/-- The external JPEG encoder and decoder (external collaborators of the
program; `jpeg.Encode` and `jpeg.Decode`). -/
structure Codec where
  encode : CImg → Int → Except String (List Nat)
  decode : List Nat → Except String CImg

/-- Go `compare`: encode the argument image at the given quality, decode the
bytes, and compute `ssim(argument, gray(decoded))`; the raw bytes are
returned alongside the index. -/
noncomputable def compare (c : Codec) (original : CImg) (quality : Int) :
    Except String (ℝ × List Nat) :=
  match c.encode original quality with
  | Except.error e => Except.error e
  | Except.ok raw =>
      match c.decode raw with
      | Except.error e => Except.error e
      | Except.ok decoded => Except.ok (ssim original (convertToGray decoded), raw)

/-- The candidate size computed by `main` for one attempt: `main` passes
`originalGray := convertToGray(original)` to `compare` and takes
`newSize := int64(len(data))` of the returned bytes. -/
noncomputable def candidateSize (c : Codec) (original : CImg) (q : Int) :
    Except String Int :=
  match compare c (convertToGray original) q with
  | Except.ok r => Except.ok (r.2.length : Int)
  | Except.error e => Except.error e

/-! ## Argument checking (`checkArgs`) -/

/-- Go `checkArgs`: each failed check overwrites `msg`; the function returns
`msg == ""`. The two `os.Stat` probes and the destination string are passed
in as explicit parameters. Note that `min` and `max` are range-checked
individually but never compared with each other. -/
def checkArgs (srcExists : Bool) (dest : String) (destExists : Bool) (force : Bool)
    (mx mn : Int) (target : ℚ) (loops : Int) : Bool :=
  let msg : String := ""
  let msg := if srcExists = false then "Source image does not exists." else msg
  let msg := if force = false ∧ destExists = true then
    "Destination path already exists. Use -f to overwrite." else msg
  let msg := if dest = "" then "Please specify a destination path" else msg
  let msg := if mx < 1 ∨ 100 < mx then "Maximum quality has to be between 1 and 100." else msg
  let msg := if mn < 0 ∨ 99 < mn then "Minimum quality has to be between 0 and 99." else msg
  let msg := if target ≤ 0 ∨ 1 < target then "Target has to be between 0 and 99." else msg
  let msg := if loops ≤ 0 then "Loops has to be more than 0" else msg
  msg == ""

/-! ## The search loop of `main` -/

/-- The data `main`'s loop consumes: the abstract per-quality evaluation
(`compare` followed by `int64(len(data))`), the original file size, the
target SSIM, the attempt bound and the initial bracket. -/
structure SearchParams where
  evalQ : Int → ℚ × Int
  originalSize : Int
  target : ℚ
  loops : Int
  minQ0 : Int
  maxQ0 : Int

/-- The mutable variables of `main`'s loop. -/
structure LoopState where
  minQ : Int
  maxQ : Int
  bestSize : Int
  bestQ : Int
  bestIndex : ℚ
  fallbackQ : Int
  fallbackSize : Int
  fallbackIndex : ℚ
  attempt : Int

/-- Initial loop state: `bestSize = originalSize`, every other tracked
variable zero, `attempt = 1`. -/
def initState (P : SearchParams) : LoopState :=
  { minQ := P.minQ0, maxQ := P.maxQ0, bestSize := P.originalSize
    bestQ := 0, bestIndex := 0, fallbackQ := 0, fallbackSize := 0
    fallbackIndex := 0, attempt := 1 }

/-- The probed quality `q = minQ + (maxQ-minQ)/2` (Go integer division
truncates toward zero). -/
def probeQ (s : LoopState) : Int :=
  s.minQ + Int.tdiv (s.maxQ - s.minQ) 2

/-- The decision rules (the `if newSize >= originalSize { ... } else { ... }`
block): narrow the bracket or force early termination by setting
`attempt = loops`. -/
def stepDecision (P : SearchParams) (q : Int) (index : ℚ) (newSize : Int)
    (s : LoopState) : LoopState :=
  if P.originalSize ≤ newSize then
    if index < P.target then { s with attempt := P.loops }
    else { s with maxQ := max (q - 1) s.minQ }
  else
    if index < P.target then { s with minQ := min (q + 1) s.maxQ }
    else if P.target < index then { s with maxQ := max (q - 1) s.minQ }
    else { s with attempt := P.loops }

/-- The best-candidate update
(`if newSize < bestSize && index >= target { ... }`). -/
def stepBest (P : SearchParams) (q : Int) (index : ℚ) (newSize : Int)
    (s : LoopState) : LoopState :=
  if newSize < s.bestSize ∧ P.target ≤ index then
    { s with bestSize := newSize, bestQ := q, bestIndex := index }
  else s

/-- The fallback-size initialization (`if fallbackSize == 0 { fallbackSize =
newSize }`): only the size field is written. -/
def stepFallbackInit (newSize : Int) (s : LoopState) : LoopState :=
  if s.fallbackSize = 0 then { s with fallbackSize := newSize } else s

/-- The fallback-candidate update (the two `else if` branches at the end of
the loop body). -/
def stepFallback (P : SearchParams) (q : Int) (index : ℚ) (newSize : Int)
    (s : LoopState) : LoopState :=
  if newSize ≤ P.originalSize ∧ s.fallbackSize < newSize then
    { s with fallbackSize := newSize, fallbackQ := q, fallbackIndex := index }
  else if P.originalSize < newSize ∧ newSize < s.fallbackSize then
    { s with fallbackSize := newSize, fallbackQ := q, fallbackIndex := index }
  else s

/-- One full `for` iteration of `main`'s loop, including the loop condition
`attempt <= loops` and the `attempt++` increment. A state whose loop has
already exited (condition false, or `minQ == maxQ` hit the `break`) is
returned unchanged; otherwise the four statement groups of the body run in
source order. -/
def stepOnce (P : SearchParams) (s : LoopState) : LoopState :=
  if P.loops < s.attempt then s
  else if s.minQ = s.maxQ then s
  else
    let q := probeQ s
    let index := (P.evalQ q).1
    let newSize := (P.evalQ q).2
    let s4 := stepFallback P q index newSize
      (stepFallbackInit newSize (stepBest P q index newSize (stepDecision P q index newSize s)))
    { s4 with attempt := s4.attempt + 1 }

/-- The loop state after `k` iterations. -/
def runSearch (P : SearchParams) : Nat → LoopState
  | 0 => initState P
  | Nat.succ k => stepOnce P (runSearch P k)

/-- The guard under which an iteration from `s` actually evaluates a
candidate (calls `compare`): the loop condition holds and the bracket has
not collapsed. -/
def attemptEvaluated (P : SearchParams) (s : LoopState) : Prop :=
  s.attempt ≤ P.loops ∧ s.minQ ≠ s.maxQ

instance (P : SearchParams) (s : LoopState) : Decidable (attemptEvaluated P s) := by
  unfold attemptEvaluated; exact inferInstance

/-- The fallback size after the `if fallbackSize == 0` initialization of the
iteration from `s`. -/
def fbSizeAfterInit (P : SearchParams) (s : LoopState) : Int :=
  if s.fallbackSize = 0 then (P.evalQ (probeQ s)).2 else s.fallbackSize

/-- The iteration from `s` writes `fallbackQ`/`fallbackIndex` (one of the two
fallback update branches fires). -/
def fallbackRecorded (P : SearchParams) (s : LoopState) : Prop :=
  s.attempt ≤ P.loops ∧ s.minQ ≠ s.maxQ ∧
    (((P.evalQ (probeQ s)).2 ≤ P.originalSize ∧
        fbSizeAfterInit P s < (P.evalQ (probeQ s)).2) ∨
      (P.originalSize < (P.evalQ (probeQ s)).2 ∧
        (P.evalQ (probeQ s)).2 < fbSizeAfterInit P s))

instance (P : SearchParams) (s : LoopState) : Decidable (fallbackRecorded P s) := by
  unfold fallbackRecorded; exact inferInstance

/-- The search-state invariant claimed by the specification. -/
def searchInv (s : LoopState) : Prop :=
  0 ≤ s.minQ ∧ s.minQ ≤ s.maxQ ∧ s.maxQ ≤ 100

instance (s : LoopState) : Decidable (searchInv s) := by
  unfold searchInv; exact inferInstance

/-! ## Outcome selection after the loop -/

/-- What `main` does after the loop: re-encode at `bestQ`, report no match,
copy the source verbatim, or re-encode at `fallbackQ`. -/
inductive Outcome where
  | best (q : Int) (idx : ℚ) (size : Int)
  | noMatch
  | copyOriginal
  | fallbackEncode (q : Int) (idx : ℚ) (size : Int)

/-- The branch structure at the end of `main`: best wins if
`bestSize < originalSize`; otherwise `-c` suppresses output; otherwise a
JPEG source is copied verbatim; otherwise the fallback candidate is
re-encoded and reported. -/
def selectOutcome (originalSize : Int) (noCopy srcIsJpeg : Bool) (s : LoopState) : Outcome :=
  if s.bestSize < originalSize then Outcome.best s.bestQ s.bestIndex s.bestSize
  else if noCopy then Outcome.noMatch
  else if srcIsJpeg then Outcome.copyOriginal
  else Outcome.fallbackEncode s.fallbackQ s.fallbackIndex s.fallbackSize

/-! ## Output writing (`save`) -/

/-- The filesystem effects `save` can encounter: whether `os.Create` fails,
and how many bytes `f.Write` actually persists before failing (a full write
persists all of them). -/
structure FileSys where
  createFails : Bool
  writeCap : Nat

/-- The resulting destination file, if any. -/
inductive SaveFile where
  | noFile
  | file (contents : List Nat)
  deriving DecidableEq

/-- Go `save`: on `os.Create` failure the error is logged and (being the
named return value) returned, the nil handle makes `Write`/`Close` no-ops
and no file is produced; on success the result of `f.Write` — including any
error and any short-write count — is discarded and `nil` is returned. -/
def save (fs : FileSys) (data : List Nat) : Option String × SaveFile :=
  if fs.createFails then (some "create failed", SaveFile.noFile)
  else (none, SaveFile.file (data.take fs.writeCap))

/-- What one output-producing branch of `main` reports. -/
structure RunReport where
  success : Bool
  output : SaveFile

/-- `main`'s output branches (lines 386-393 and 405-414): `save(dest, data)`
is called with its return value discarded, and the success report is printed
regardless of the save result. -/
def saveAndReport (fs : FileSys) (data : List Nat) : RunReport :=
  let r := save fs data
  { success := true, output := r.2 }

end JR

/-! ## Concrete instances used by counterexamples and witnesses -/

/-- A 1×1 image whose single pixel is a saturated red `(200,0,0)`; its gray
value is `grayY (200,0,0) = 60`, so the image and its grayscale copy differ. -/
def img0 : JR.CImg := ⟨1, 1, fun _ _ => (200, 0, 0)⟩

/-- A fixed decoded image returned by the toy decoder. -/
def dec0 : JR.CImg := ⟨1, 1, fun _ _ => (9, 9, 9)⟩

/-- A toy codec whose encoding of an image has length equal to the luminance
byte of pixel (0,0): encoding `img0` yields 200 bytes, encoding its gray
copy yields 60 bytes. -/
def c0codec : JR.Codec :=
  ⟨fun img _ => Except.ok (List.replicate (JR.getPixVal (img.pix 0 0)) 0),
    fun _ => Except.ok dec0⟩

/-- Search parameters whose evaluation produces sizes 200, 100, 180 at the
successively probed qualities 50, 24, 11 against an original size of 150. -/
def P2 : JR.SearchParams :=
  { evalQ := fun q => (1, if q = 50 then 200 else if q = 24 then 100 else if q = 11 then 180 else 999)
    originalSize := 150, target := 0, loops := 3, minQ0 := 0, maxQ0 := 100 }

/-- Search parameters with `minQ0 = 50 > maxQ0 = 10`: a configuration that
`checkArgs` accepts. -/
def P3 : JR.SearchParams :=
  { evalQ := fun _ => (1, 50), originalSize := 100, target := 1, loops := 6
    minQ0 := 50, maxQ0 := 10 }

/-- A 1×2 image with luminance values 0 and 2. -/
def img4 : JR.CImg := ⟨1, 2, fun _ y => if y = 0 then (0, 0, 0) else (2, 2, 2)⟩

/-- A loop state with bracket `[0, 1]`: the true midpoint `0.5` falls exactly
between two integers. -/
def s5 : JR.LoopState := ⟨0, 1, 100, 0, 0, 0, 0, 0, 1⟩

/-- A loop state with the default bracket `[40, 95]`. -/
def s5w : JR.LoopState := ⟨40, 95, 100, 0, 0, 0, 0, 0, 1⟩

/-- Search parameters with the default bracket and attempt bound. -/
def P6 : JR.SearchParams :=
  { evalQ := fun q => (1, q + 7), originalSize := 5000, target := 1, loops := 6
    minQ0 := 40, maxQ0 := 95 }

/-- A 1×2 image with two distinct luminance values (so `N = 2`). -/
def img7 : JR.CImg := ⟨1, 2, fun _ y => if y = 0 then (10, 0, 0) else (20, 0, 0)⟩

/-- A 1×1 image. -/
def x8 : JR.CImg := ⟨1, 1, fun _ _ => (5, 5, 5)⟩

/-- A 2×1 image: same pixels as `x8` but different width. -/
def y8 : JR.CImg := ⟨2, 1, fun _ _ => (5, 5, 5)⟩

/-- A filesystem where creation succeeds but the write persists only 1 byte. -/
def fs9 : JR.FileSys := ⟨false, 1⟩

/-- Three bytes of output data. -/
def data9 : List Nat := [7, 8, 9]

/-- Search parameters with a collapsed initial bracket `minQ0 = maxQ0 = 50`:
the loop breaks on attempt 1 without evaluating any candidate. -/
def P10 : JR.SearchParams :=
  { evalQ := fun _ => (1, 200), originalSize := 100, target := 1, loops := 2
    minQ0 := 50, maxQ0 := 50 }

/-! ## Theorems -/

/-- Claim C1, counterexample: `main` evaluates candidates via
`compare(originalGray, q)`, so the candidate size is the length of the
encoding of the *grayscale* copy, not of the original: for the toy codec the
candidate size is 60 while the encoding of the original has length 200. -/
theorem c1_counterexample :
    JR.candidateSize c0codec img0 50 = Except.ok 60 ∧
    c0codec.encode img0 50 = Except.ok (List.replicate 200 0) ∧
    ((List.replicate 200 0).length : Int) = 200 ∧ (60 : Int) ≠ 200 :=
  ⟨rfl, rfl, by rw [List.length_replicate]; rfl, by decide⟩

/-- Claim C1, amended: the candidate evaluation invokes the encoder at the
chosen quality on the grayscale copy of the original image; the candidate
size is the length of that encoding, and the grayscale copy is also the
reference image of the similarity metric. -/
theorem c1_theorem (c : JR.Codec) (img : JR.CImg) (q : Int) (raw : List Nat) (d : JR.CImg)
    (henc : c.encode (JR.convertToGray img) q = Except.ok raw)
    (hdec : c.decode raw = Except.ok d) :
    JR.compare c (JR.convertToGray img) q =
      Except.ok (JR.ssim (JR.convertToGray img) (JR.convertToGray d), raw) ∧
    JR.candidateSize c img q = Except.ok (raw.length : Int) := by
  unfold JR.candidateSize JR.compare
  rw [henc]
  dsimp only
  rw [hdec]
  exact ⟨rfl, rfl⟩

/-- Claim C1, witness for the amended theorem at the toy codec. -/
theorem c1_witness :
    JR.compare c0codec (JR.convertToGray img0) 50 =
      Except.ok (JR.ssim (JR.convertToGray img0) (JR.convertToGray dec0), List.replicate 60 0) ∧
    JR.candidateSize c0codec img0 50 = Except.ok ((List.replicate 60 0).length : Int) :=
  c1_theorem c0codec img0 50 (List.replicate 60 0) dec0 rfl rfl

/-- Claim C4 (code bug): on the 1×2 image with luminance values 0 and 2 the
code's `mean` returns `sum/(N-1) = 2`, while the arithmetic mean
`sum/N` is 1. -/
theorem c4_theorem :
    JR.mean img4 = 2 ∧ JR.pixSum img4 / ((img4.w * img4.h : ℚ)) = 1 ∧ (2 : ℚ) ≠ 1 := by
  refine ⟨?_, ?_, by norm_num⟩ <;>
    norm_num [JR.mean, JR.pixSum, img4, Finset.sum_range_succ, JR.getPixVal]

/-- Claim C5, counterexample: with bracket `[0,1]` the true midpoint `0.5`
ties between 0 and 1; rounding biased toward `maxQ` would give 1, but the
code probes `q = 0`. -/
theorem c5_counterexample : JR.probeQ s5 = 0 ∧ JR.probeQ s5 ≠ 1 := by decide

/-- Claim C5, amended: for `0 ≤ minQ ≤ maxQ` the probed quality is the
integer midpoint rounded *down* (toward `minQ`) on ties:
`2q ≤ minQ + maxQ ≤ 2q + 1`, and `q` stays inside the bracket. -/
theorem c5_theorem (s : JR.LoopState) (_h0 : 0 ≤ s.minQ) (h1 : s.minQ ≤ s.maxQ) :
    s.minQ ≤ JR.probeQ s ∧ JR.probeQ s ≤ s.maxQ ∧
      2 * JR.probeQ s ≤ s.minQ + s.maxQ ∧ s.minQ + s.maxQ ≤ 2 * JR.probeQ s + 1 := by
  unfold JR.probeQ
  rw [Int.tdiv_eq_ediv (by omega) (by omega)]
  omega

/-- Claim C5, witness for the amended theorem at bracket `[40, 95]`. -/
theorem c5_witness :
    s5w.minQ ≤ JR.probeQ s5w ∧ JR.probeQ s5w ≤ s5w.maxQ ∧
      2 * JR.probeQ s5w ≤ s5w.minQ + s5w.maxQ ∧ s5w.minQ + s5w.maxQ ≤ 2 * JR.probeQ s5w + 1 :=
  c5_theorem s5w (by decide) (by decide)

/-- Claim C9, counterexample: when the byte write persists only 1 of 3 bytes,
`save` reports no error (`f.Write`'s result is discarded), the destination
holds a partial file, and the run still reports success. -/
theorem c9_counterexample :
    (JR.save fs9 data9).1 = none ∧
    (JR.save fs9 data9).2 = JR.SaveFile.file [7] ∧
    JR.SaveFile.file [7] ≠ JR.SaveFile.file data9 ∧
    (JR.saveAndReport fs9 data9).success = true := by decide

/-- Claim C9, amended: `save` returns the creation error (which `main`
ignores, still reporting success), and silently discards write errors: a
short write leaves a partial output file with no error reported and the run
reporting success. -/
theorem c9_theorem (fs : JR.FileSys) (data : List Nat) :
    (fs.createFails = true →
      (JR.save fs data).1 = some "create failed" ∧
        (JR.save fs data).2 = JR.SaveFile.noFile ∧
        (JR.saveAndReport fs data).success = true) ∧
    (fs.createFails = false → fs.writeCap < data.length →
      (JR.save fs data).1 = none ∧
        (JR.save fs data).2 = JR.SaveFile.file (data.take fs.writeCap) ∧
        data.take fs.writeCap ≠ data ∧
        (JR.saveAndReport fs data).success = true) := by
  constructor
  · intro h
    simp [JR.save, JR.saveAndReport, h]
  · intro h hlen
    refine ⟨by simp [JR.save, h], by simp [JR.save, h], ?_,
      by simp [JR.saveAndReport, JR.save, h]⟩
    intro heq
    have hl := congrArg List.length heq
    simp [List.length_take] at hl
    omega

/-- Claim C9, witness for the amended theorem at the short-write filesystem. -/
theorem c9_witness :
    (JR.save fs9 data9).1 = none ∧
      (JR.save fs9 data9).2 = JR.SaveFile.file (data9.take fs9.writeCap) ∧
      data9.take fs9.writeCap ≠ data9 ∧
      (JR.saveAndReport fs9 data9).success = true :=
  (c9_theorem fs9 data9).2 rfl (by decide)

/-! ### SSIM lemmas -/

/-- Unfolding `ssim` when the covariance succeeds. -/
theorem ssim_ok {x y : JR.CImg} {cov : ℚ} (h : JR.covar x y = Except.ok cov) :
    JR.ssim x y =
      (((2 : ℝ) * (JR.mean x : ℝ) * (JR.mean y : ℝ) + (JR.C1 : ℝ)) *
          ((2 : ℝ) * (cov : ℝ) + (JR.C2 : ℝ))) /
        (((JR.mean x : ℝ) ^ 2 + (JR.mean y : ℝ) ^ 2 + (JR.C1 : ℝ)) *
          (JR.stdev x ^ 2 + JR.stdev y ^ 2 + (JR.C2 : ℝ))) := by
  unfold JR.ssim
  rw [h]

/-- Unfolding `ssim` when the covariance fails. -/
theorem ssim_err {x y : JR.CImg} {e : String} (h : JR.covar x y = Except.error e) :
    JR.ssim x y = 0 := by
  unfold JR.ssim
  rw [h]

/-- The covariance cross sum of an image with itself is the squared sum of
its own deviations. -/
theorem covarSum_self (img : JR.CImg) : JR.covarSum img img = JR.sqSum img := by
  unfold JR.covarSum JR.sqSum
  refine Finset.sum_congr rfl fun x _ => Finset.sum_congr rfl fun y _ => ?_
  ring

/-- The squared-deviation sum is nonnegative. -/
theorem sqSum_nonneg (img : JR.CImg) : 0 ≤ JR.sqSum img := by
  unfold JR.sqSum
  refine Finset.sum_nonneg fun x _ => Finset.sum_nonneg fun y _ => ?_
  positivity

/-- Claim C7 (confirmed): for an image with at least two pixels the metric of
the image with itself is exactly 1 in exact arithmetic: the covariance of an
image with itself is its variance, so numerator and denominator agree. -/
theorem c7_theorem (img : JR.CImg) (h : 2 ≤ img.w * img.h) : JR.ssim img img = 1 := by
  have hdim : JR.equalDim img img = true := by simp [JR.equalDim]
  have hN : (2 : ℚ) ≤ (img.w * img.h : ℚ) := by exact_mod_cast h
  have hn : (0 : ℚ) < (img.w * img.h : ℚ) - 1 := by linarith
  have hv : (0 : ℚ) ≤ JR.sqSum img / ((img.w * img.h : ℚ) - 1) :=
    div_nonneg (sqSum_nonneg img) hn.le
  have hcov : JR.covar img img =
      Except.ok (JR.sqSum img / ((img.w * img.h : ℚ) - 1)) := by
    unfold JR.covar
    rw [hdim, covarSum_self]
    rfl
  rw [ssim_ok hcov]
  have hst : JR.stdev img ^ 2 =
      ((JR.sqSum img / ((img.w * img.h : ℚ) - 1) : ℚ) : ℝ) := by
    unfold JR.stdev
    exact Real.sq_sqrt (by exact_mod_cast hv)
  rw [hst]
  set a : ℝ := (JR.mean img : ℝ) with ha
  set V : ℝ := ((JR.sqSum img / ((img.w * img.h : ℚ) - 1) : ℚ) : ℝ) with hV
  have hV0 : (0 : ℝ) ≤ V := by rw [hV]; exact_mod_cast hv
  have hC1 : (0 : ℝ) < (JR.C1 : ℝ) := by
    have h1 : (0 : ℚ) < JR.C1 := by norm_num [JR.C1, JR.K1, JR.L]
    exact_mod_cast h1
  have hC2 : (0 : ℝ) < (JR.C2 : ℝ) := by
    have h2 : (0 : ℚ) < JR.C2 := by norm_num [JR.C2, JR.K2, JR.L]
    exact_mod_cast h2
  have hsq : (0 : ℝ) ≤ a ^ 2 := sq_nonneg a
  have hd1 : (0 : ℝ) < a ^ 2 + a ^ 2 + (JR.C1 : ℝ) := by linarith
  have hd2 : (0 : ℝ) < V + V + (JR.C2 : ℝ) := by linarith
  have hnum : (2 * a * a + (JR.C1 : ℝ)) * (2 * V + (JR.C2 : ℝ)) =
      (a ^ 2 + a ^ 2 + (JR.C1 : ℝ)) * (V + V + (JR.C2 : ℝ)) := by ring
  rw [hnum]
  exact div_self (ne_of_gt (mul_pos hd1 hd2))

/-- Claim C7, witness: the 1×2 two-pixel image. -/
theorem c7_witness : 2 ≤ img7.w * img7.h ∧ JR.ssim img7 img7 = 1 :=
  ⟨by decide, c7_theorem img7 (by decide)⟩

/-- Claim C8 (confirmed): on images of differing width or height `covar`
fails with the dimension-mismatch error and `ssim` returns `0.0` instead of
propagating it; on dimension-compatible images the error branch is
unreachable (`covar` returns a value). -/
theorem c8_theorem (x y : JR.CImg) :
    (JR.equalDim x y = false →
      JR.covar x y = Except.error "images must have same dimension" ∧
        JR.ssim x y = 0) ∧
    (JR.equalDim x y = true →
      JR.covar x y = Except.ok (JR.covarSum x y / ((x.w * x.h : ℚ) - 1))) := by
  constructor
  · intro hd
    have hcov : JR.covar x y = Except.error "images must have same dimension" := by
      unfold JR.covar
      rw [hd]
      rfl
    exact ⟨hcov, ssim_err hcov⟩
  · intro hd
    unfold JR.covar
    rw [hd]
    rfl

/-- Claim C8, witness: a 1×1 and a 2×1 image. -/
theorem c8_witness :
    JR.covar x8 y8 = Except.error "images must have same dimension" ∧
      JR.ssim x8 y8 = 0 :=
  (c8_theorem x8 y8).1 (by decide)

/-- Claim C3, counterexample: the configuration `min = 50, max = 10` (with
valid paths, target and loops) passes `checkArgs`, and the search on that
configuration evaluates an attempt (the loop guard holds and the bracket has
not collapsed), contradicting both rejection-before-search and
no-attempt-evaluated. -/
theorem c3_counterexample :
    JR.checkArgs true "out.jpg" false false 10 50 1 6 = true ∧
    P3.maxQ0 < P3.minQ0 ∧
    JR.attemptEvaluated P3 (JR.initState P3) := by
  refine ⟨by decide, by decide, by decide⟩

/-- Claim C3, amended: `checkArgs` validates each recognized option range
individually — `maxQuality ∈ [1,100]`, `minQuality ∈ [0,99]`,
`targetSimilarity ∈ (0,1]`, `maxAttempts > 0` — but never compares
`minQuality` with `maxQuality`, so a configuration with
`minQuality ≥ maxQuality` is accepted. -/
theorem c3_theorem (mx mn : Int) (t : ℚ) (l : Int) :
    JR.checkArgs true "out.jpg" false false mx mn t l = true ↔
      (1 ≤ mx ∧ mx ≤ 100 ∧ 0 ≤ mn ∧ mn ≤ 99 ∧ 0 < t ∧ t ≤ 1 ∧ 0 < l) := by
  unfold JR.checkArgs
  dsimp only
  split_ifs with h1 h2 h3 h4 h5 h6 h7 <;> simp_all <;> intros <;>
    first
      | omega
      | (rcases h2 with h | h <;> linarith)

/-- Claim C3, witness for the amended characterization at the default
configuration. -/
theorem c3_witness :
    JR.checkArgs true "out.jpg" false false 95 40 1 6 = true ↔
      (1 ≤ (95 : Int) ∧ (95 : Int) ≤ 100 ∧ 0 ≤ (40 : Int) ∧ (40 : Int) ≤ 99 ∧
        0 < (1 : ℚ) ∧ (1 : ℚ) ≤ 1 ∧ 0 < (6 : Int)) :=
  c3_theorem 95 40 1 6

/-! ### Search-loop lemmas -/

/-- The decision rules only touch `minQ`, `maxQ` and `attempt`. -/
theorem stepDecision_rest (P : JR.SearchParams) (q : Int) (index : ℚ) (newSize : Int)
    (s : JR.LoopState) :
    (JR.stepDecision P q index newSize s).bestSize = s.bestSize ∧
    (JR.stepDecision P q index newSize s).bestQ = s.bestQ ∧
    (JR.stepDecision P q index newSize s).bestIndex = s.bestIndex ∧
    (JR.stepDecision P q index newSize s).fallbackQ = s.fallbackQ ∧
    (JR.stepDecision P q index newSize s).fallbackSize = s.fallbackSize ∧
    (JR.stepDecision P q index newSize s).fallbackIndex = s.fallbackIndex := by
  unfold JR.stepDecision
  split_ifs <;> exact ⟨rfl, rfl, rfl, rfl, rfl, rfl⟩

/-- The decision rules keep the bracket inside the old one. -/
theorem stepDecision_bracket (P : JR.SearchParams) (q : Int) (index : ℚ) (newSize : Int)
    (s : JR.LoopState) (h1 : s.minQ ≤ s.maxQ) (hq1 : s.minQ ≤ q) (hq2 : q ≤ s.maxQ) :
    s.minQ ≤ (JR.stepDecision P q index newSize s).minQ ∧
    (JR.stepDecision P q index newSize s).minQ ≤ (JR.stepDecision P q index newSize s).maxQ ∧
    (JR.stepDecision P q index newSize s).maxQ ≤ s.maxQ := by
  unfold JR.stepDecision
  split_ifs <;> refine ⟨?_, ?_, ?_⟩ <;> dsimp only <;> omega

/-- The decision rules leave `attempt` alone or set it to `loops`. -/
theorem stepDecision_attempt (P : JR.SearchParams) (q : Int) (index : ℚ) (newSize : Int)
    (s : JR.LoopState) :
    (JR.stepDecision P q index newSize s).attempt = s.attempt ∨
      (JR.stepDecision P q index newSize s).attempt = P.loops := by
  unfold JR.stepDecision
  split_ifs <;> first | (left; rfl) | (right; rfl)

/-- The best-candidate update only touches the `best*` fields. -/
theorem stepBest_rest (P : JR.SearchParams) (q : Int) (index : ℚ) (newSize : Int)
    (s : JR.LoopState) :
    (JR.stepBest P q index newSize s).minQ = s.minQ ∧
    (JR.stepBest P q index newSize s).maxQ = s.maxQ ∧
    (JR.stepBest P q index newSize s).attempt = s.attempt ∧
    (JR.stepBest P q index newSize s).fallbackQ = s.fallbackQ ∧
    (JR.stepBest P q index newSize s).fallbackSize = s.fallbackSize ∧
    (JR.stepBest P q index newSize s).fallbackIndex = s.fallbackIndex := by
  unfold JR.stepBest
  split_ifs <;> exact ⟨rfl, rfl, rfl, rfl, rfl, rfl⟩

/-- The fallback initialization only touches `fallbackSize`. -/
theorem stepFallbackInit_rest (newSize : Int) (s : JR.LoopState) :
    (JR.stepFallbackInit newSize s).minQ = s.minQ ∧
    (JR.stepFallbackInit newSize s).maxQ = s.maxQ ∧
    (JR.stepFallbackInit newSize s).attempt = s.attempt ∧
    (JR.stepFallbackInit newSize s).fallbackQ = s.fallbackQ ∧
    (JR.stepFallbackInit newSize s).fallbackIndex = s.fallbackIndex := by
  unfold JR.stepFallbackInit
  split_ifs <;> exact ⟨rfl, rfl, rfl, rfl, rfl⟩

/-- The fallback size after initialization. -/
theorem stepFallbackInit_size (newSize : Int) (s : JR.LoopState) :
    (JR.stepFallbackInit newSize s).fallbackSize =
      if s.fallbackSize = 0 then newSize else s.fallbackSize := by
  unfold JR.stepFallbackInit
  split_ifs <;> rfl

/-- The fallback update only touches the `fallback*` fields. -/
theorem stepFallback_rest (P : JR.SearchParams) (q : Int) (index : ℚ) (newSize : Int)
    (s : JR.LoopState) :
    (JR.stepFallback P q index newSize s).minQ = s.minQ ∧
    (JR.stepFallback P q index newSize s).maxQ = s.maxQ ∧
    (JR.stepFallback P q index newSize s).attempt = s.attempt := by
  unfold JR.stepFallback
  split_ifs <;> exact ⟨rfl, rfl, rfl⟩

/-- When neither fallback branch fires, the fallback update is the identity. -/
theorem stepFallback_id (P : JR.SearchParams) (q : Int) (index : ℚ) (newSize : Int)
    (s : JR.LoopState)
    (h1 : ¬(newSize ≤ P.originalSize ∧ s.fallbackSize < newSize))
    (h2 : ¬(P.originalSize < newSize ∧ newSize < s.fallbackSize)) :
    JR.stepFallback P q index newSize s = s := by
  unfold JR.stepFallback
  rw [if_neg h1, if_neg h2]

/-- Fallback regimes: a fallback size that is `≤ originalSize` can only grow
toward `originalSize` and stays `≤ originalSize`; a fallback size that is
`> originalSize` can only shrink toward it and stays `> originalSize`. -/
theorem stepFallback_size (P : JR.SearchParams) (q : Int) (index : ℚ) (newSize : Int)
    (s : JR.LoopState) :
    (s.fallbackSize ≤ P.originalSize →
      s.fallbackSize ≤ (JR.stepFallback P q index newSize s).fallbackSize ∧
        (JR.stepFallback P q index newSize s).fallbackSize ≤ P.originalSize) ∧
    (P.originalSize < s.fallbackSize →
      (JR.stepFallback P q index newSize s).fallbackSize ≤ s.fallbackSize ∧
        P.originalSize < (JR.stepFallback P q index newSize s).fallbackSize) := by
  unfold JR.stepFallback
  split_ifs with h1 h2 <;> constructor <;> intro hc <;> (try dsimp only) <;> omega

/-- Unfolding one active iteration (loop condition holds, bracket not
collapsed). -/
theorem stepOnce_active (P : JR.SearchParams) (s : JR.LoopState)
    (hf : ¬ P.loops < s.attempt) (hc : ¬ s.minQ = s.maxQ) :
    JR.stepOnce P s =
      (let q := JR.probeQ s
       let index := (P.evalQ q).1
       let newSize := (P.evalQ q).2
       let s4 := JR.stepFallback P q index newSize
         (JR.stepFallbackInit newSize (JR.stepBest P q index newSize
           (JR.stepDecision P q index newSize s)))
       { s4 with attempt := s4.attempt + 1 }) := by
  unfold JR.stepOnce
  rw [if_neg hf, if_neg hc]

/-- One iteration preserves the bracket invariant and never widens the
bracket. -/
theorem stepOnce_bracket (P : JR.SearchParams) (s : JR.LoopState) (h : JR.searchInv s) :
    JR.searchInv (JR.stepOnce P s) ∧
      (JR.stepOnce P s).maxQ - (JR.stepOnce P s).minQ ≤ s.maxQ - s.minQ := by
  obtain ⟨h0, h1, h2⟩ := h
  by_cases hf : P.loops < s.attempt
  · unfold JR.stepOnce
    rw [if_pos hf]
    exact ⟨⟨h0, h1, h2⟩, le_refl _⟩
  by_cases hc : s.minQ = s.maxQ
  · unfold JR.stepOnce
    rw [if_neg hf, if_pos hc]
    exact ⟨⟨h0, h1, h2⟩, le_refl _⟩
  · have hq : s.minQ ≤ JR.probeQ s ∧ JR.probeQ s ≤ s.maxQ := by
      unfold JR.probeQ
      rw [Int.tdiv_eq_ediv (by omega) (by omega)]
      omega
    have hd := stepDecision_bracket P (JR.probeQ s) (P.evalQ (JR.probeQ s)).1
      (P.evalQ (JR.probeQ s)).2 s h1 hq.1 hq.2
    unfold JR.searchInv
    rw [stepOnce_active P s hf hc]
    dsimp only
    simp only [stepFallback_rest, stepFallbackInit_rest, stepBest_rest]
    omega

/-- One iteration either leaves an exited loop state unchanged or strictly
increases `attempt`. -/
theorem stepOnce_exit (P : JR.SearchParams) (s : JR.LoopState) :
    JR.stepOnce P s = s ∨ s.attempt + 1 ≤ (JR.stepOnce P s).attempt := by
  by_cases hf : P.loops < s.attempt
  · left
    unfold JR.stepOnce
    rw [if_pos hf]
  by_cases hc : s.minQ = s.maxQ
  · left
    unfold JR.stepOnce
    rw [if_neg hf, if_pos hc]
  · right
    have ha := stepDecision_attempt P (JR.probeQ s) (P.evalQ (JR.probeQ s)).1
      (P.evalQ (JR.probeQ s)).2 s
    rw [stepOnce_active P s hf hc]
    dsimp only
    simp only [stepFallback_rest, stepFallbackInit_rest, stepBest_rest]
    rcases ha with ha | ha <;> omega

/-- After `k` iterations the loop has either stopped (the step is the
identity) or `attempt` has grown beyond `k`. -/
theorem runSearch_exit (P : JR.SearchParams) :
    ∀ k : Nat, JR.stepOnce P (JR.runSearch P k) = JR.runSearch P k ∨
      (k : Int) + 1 ≤ (JR.runSearch P k).attempt := by
  intro k
  induction k with
  | zero =>
    right
    show (0 : Int) + 1 ≤ (JR.initState P).attempt
    simp [JR.initState]
  | succ n ih =>
    rcases ih with heq | hat
    · have hr : JR.runSearch P (n + 1) = JR.runSearch P n := heq
      rw [hr]
      left
      exact heq
    · rcases stepOnce_exit P (JR.runSearch P n) with heq2 | hstep
      · have hr : JR.runSearch P (n + 1) = JR.runSearch P n := heq2
        rw [hr]
        left
        exact heq2
      · right
        have hs : (JR.runSearch P (n + 1)).attempt =
            (JR.stepOnce P (JR.runSearch P n)).attempt := rfl
        rw [hs]
        push_cast
        omega

/-- Claim C6 (confirmed): if `0 ≤ minQ ≤ maxQ ≤ 100` holds initially then it
holds at entry to every attempt, the bracket width never grows, and after
`maxAttempts` iterations the loop has terminated (the step function has
reached a fixed point — via attempt exhaustion, bracket collapse, or the
early-stop rules). -/
theorem c6_theorem (P : JR.SearchParams) (h : JR.searchInv (JR.initState P)) (k : Nat) :
    JR.searchInv (JR.runSearch P k) ∧
      (JR.runSearch P (k + 1)).maxQ - (JR.runSearch P (k + 1)).minQ ≤
        (JR.runSearch P k).maxQ - (JR.runSearch P k).minQ ∧
      JR.stepOnce P (JR.runSearch P P.loops.toNat) = JR.runSearch P P.loops.toNat := by
  have inv : ∀ m : Nat, JR.searchInv (JR.runSearch P m) := by
    intro m
    induction m with
    | zero => exact h
    | succ n ih => exact (stepOnce_bracket P (JR.runSearch P n) ih).1
  refine ⟨inv k, (stepOnce_bracket P (JR.runSearch P k) (inv k)).2, ?_⟩
  rcases runSearch_exit P P.loops.toNat with heq | hat
  · exact heq
  · have hl : P.loops < (JR.runSearch P P.loops.toNat).attempt := by
      have h2 := Int.self_le_toNat P.loops
      omega
    unfold JR.stepOnce
    rw [if_pos hl]

/-- Claim C6, witness at the default parameters, attempt index 2. -/
theorem c6_witness :
    JR.searchInv (JR.runSearch P6 2) ∧
      (JR.runSearch P6 3).maxQ - (JR.runSearch P6 3).minQ ≤
        (JR.runSearch P6 2).maxQ - (JR.runSearch P6 2).minQ ∧
      JR.stepOnce P6 (JR.runSearch P6 P6.loops.toNat) = JR.runSearch P6 P6.loops.toNat :=
  c6_theorem P6 (by decide) 2

/-- Claim C2, counterexample: running `P2` (original size 150, probed sizes
200 at q=50, 100 at q=24, 180 at q=11), the attempt-2 candidate has size
100 ≤ 150, yet the final fallback is the attempt-3 candidate of size
180 > 150 — so the fallback neither maximizes size among candidates
`≤ originalSize` nor is a `> originalSize` candidate kept only when no
`≤ originalSize` candidate was ever seen. -/
theorem c2_counterexample :
    (JR.runSearch P2 3).fallbackSize = 180 ∧
    (JR.runSearch P2 3).fallbackQ = 11 ∧
    JR.probeQ (JR.runSearch P2 1) = 24 ∧
    (P2.evalQ 24).2 = 100 ∧ ((100 : Int) ≤ 150) ∧ ((150 : Int) < 180) := by
  refine ⟨by decide, by decide, by decide, by decide, by decide, by decide⟩

/-- Claim C2, amended: the fallback regime is frozen by the current fallback
size, not by the set of candidates seen so far: once the (nonzero) fallback
size is `≤ originalSize` it only grows toward `originalSize` and stays
`≤ originalSize`; once it is `> originalSize` it only shrinks toward
`originalSize` and stays `> originalSize` (candidates on the other side of
`originalSize` are ignored). -/
theorem c2_theorem (P : JR.SearchParams) (s : JR.LoopState)
    (hfb : 0 < s.fallbackSize) :
    (s.fallbackSize ≤ P.originalSize →
      s.fallbackSize ≤ (JR.stepOnce P s).fallbackSize ∧
        (JR.stepOnce P s).fallbackSize ≤ P.originalSize) ∧
    (P.originalSize < s.fallbackSize →
      (JR.stepOnce P s).fallbackSize ≤ s.fallbackSize ∧
        P.originalSize < (JR.stepOnce P s).fallbackSize) := by
  by_cases hf : P.loops < s.attempt
  · unfold JR.stepOnce
    rw [if_pos hf]
    exact ⟨fun hc => ⟨le_refl _, hc⟩, fun hc => ⟨le_refl _, hc⟩⟩
  by_cases hc : s.minQ = s.maxQ
  · unfold JR.stepOnce
    rw [if_neg hf, if_pos hc]
    exact ⟨fun hx => ⟨le_refl _, hx⟩, fun hx => ⟨le_refl _, hx⟩⟩
  · rw [stepOnce_active P s hf hc]
    dsimp only
    set q := JR.probeQ s with hqdef
    set idx := (P.evalQ q).1 with hidef
    set n := (P.evalQ q).2 with hndef
    set d := JR.stepDecision P q idx n s with hddef
    set b := JR.stepBest P q idx n d with hbdef
    set fi := JR.stepFallbackInit n b with hfidef
    have hbfs : b.fallbackSize = s.fallbackSize := by
      rw [hbdef]
      simp only [stepBest_rest]
      rw [hddef]
      simp only [stepDecision_rest]
    have hfis : fi.fallbackSize = s.fallbackSize := by
      rw [hfidef, stepFallbackInit_size, hbfs]
      rw [if_neg (by omega)]
    have hreg := stepFallback_size P q idx n fi
    rw [hfis] at hreg
    exact hreg

/-- Claim C2, witness for the amended theorem: after attempt 1 of `P2` the
fallback size is 200 > 150, and the next iteration keeps it above the
original size while not increasing it. -/
theorem c2_witness :
    (JR.stepOnce P2 (JR.runSearch P2 1)).fallbackSize ≤ (JR.runSearch P2 1).fallbackSize ∧
      P2.originalSize < (JR.stepOnce P2 (JR.runSearch P2 1)).fallbackSize :=
  (c2_theorem P2 (JR.runSearch P2 1) (by decide)).2 (by decide)

/-- An iteration that does not fire a fallback-update branch leaves
`fallbackQ` and `fallbackIndex` unchanged. -/
theorem stepOnce_fallback_id (P : JR.SearchParams) (s : JR.LoopState)
    (h : ¬ JR.fallbackRecorded P s) :
    (JR.stepOnce P s).fallbackQ = s.fallbackQ ∧
      (JR.stepOnce P s).fallbackIndex = s.fallbackIndex := by
  by_cases hf : P.loops < s.attempt
  · unfold JR.stepOnce
    rw [if_pos hf]
    exact ⟨rfl, rfl⟩
  by_cases hc : s.minQ = s.maxQ
  · unfold JR.stepOnce
    rw [if_neg hf, if_pos hc]
    exact ⟨rfl, rfl⟩
  · have hA : s.attempt ≤ P.loops := by omega
    have hnr1 : ¬((P.evalQ (JR.probeQ s)).2 ≤ P.originalSize ∧
        JR.fbSizeAfterInit P s < (P.evalQ (JR.probeQ s)).2) :=
      fun hx => h ⟨hA, hc, Or.inl hx⟩
    have hnr2 : ¬(P.originalSize < (P.evalQ (JR.probeQ s)).2 ∧
        (P.evalQ (JR.probeQ s)).2 < JR.fbSizeAfterInit P s) :=
      fun hx => h ⟨hA, hc, Or.inr hx⟩
    rw [stepOnce_active P s hf hc]
    dsimp only
    set q := JR.probeQ s with hqdef
    set idx := (P.evalQ q).1 with hidef
    set n := (P.evalQ q).2 with hndef
    set d := JR.stepDecision P q idx n s with hddef
    set b := JR.stepBest P q idx n d with hbdef
    set fi := JR.stepFallbackInit n b with hfidef
    have hbfs : b.fallbackSize = s.fallbackSize := by
      rw [hbdef]
      simp only [stepBest_rest]
      rw [hddef]
      simp only [stepDecision_rest]
    have hfis : fi.fallbackSize = JR.fbSizeAfterInit P s := by
      rw [hfidef, stepFallbackInit_size, hbfs]
      rfl
    have hstep : JR.stepFallback P q idx n fi = fi := by
      apply stepFallback_id
      · rw [hfis]
        exact hnr1
      · rw [hfis]
        exact hnr2
    rw [hstep]
    constructor
    · rw [hfidef]
      simp only [stepFallbackInit_rest]
      rw [hbdef]
      simp only [stepBest_rest]
      rw [hddef]
      simp only [stepDecision_rest]
    · rw [hfidef]
      simp only [stepFallbackInit_rest]
      rw [hbdef]
      simp only [stepBest_rest]
      rw [hddef]
      simp only [stepDecision_rest]

/-- If no iteration up to `K` fires a fallback-update branch, the fallback
quality and index keep their zero initial values. -/
theorem runSearch_fallback (P : JR.SearchParams) (K : Nat)
    (hrec : ∀ k, k < K → ¬ JR.fallbackRecorded P (JR.runSearch P k)) :
    (JR.runSearch P K).fallbackQ = 0 ∧ (JR.runSearch P K).fallbackIndex = 0 := by
  induction K with
  | zero => exact ⟨rfl, rfl⟩
  | succ n ih =>
    have h1 := ih fun k hk => hrec k (Nat.lt_succ_of_lt hk)
    have h2 := stepOnce_fallback_id P (JR.runSearch P n) (hrec n (Nat.lt_succ_self n))
    exact ⟨h2.1.trans h1.1, h2.2.trans h1.2⟩

/-- Claim C10 (confirmed): if the loop never records a fallback quality (for
example because the bracket is collapsed from the start, or only the first
attempt runs) and the outcome selection reaches the fallback re-encode
branch (best unset, fallback copy enabled, source not JPEG), the output is
encoded at quality 0 and the reported fallback index is 0. -/
theorem c10_theorem (P : JR.SearchParams) (K : Nat)
    (hrec : ∀ k, k < K → ¬ JR.fallbackRecorded P (JR.runSearch P k))
    (hbest : ¬ (JR.runSearch P K).bestSize < P.originalSize) :
    JR.selectOutcome P.originalSize false false (JR.runSearch P K) =
      JR.Outcome.fallbackEncode 0 0 (JR.runSearch P K).fallbackSize ∧
    (JR.runSearch P K).fallbackQ = 0 ∧ (JR.runSearch P K).fallbackIndex = 0 := by
  have hf := runSearch_fallback P K hrec
  refine ⟨?_, hf⟩
  unfold JR.selectOutcome
  rw [if_neg hbest]
  simp [hf.1, hf.2]

/-- Claim C10, witness: `P10` has `minQ0 = maxQ0 = 50`, so the loop breaks
on attempt 1 without evaluating; the outcome is a fallback re-encode at
quality 0 with reported index 0. -/
theorem c10_witness :
    JR.selectOutcome P10.originalSize false false (JR.runSearch P10 3) =
      JR.Outcome.fallbackEncode 0 0 (JR.runSearch P10 3).fallbackSize ∧
    (JR.runSearch P10 3).fallbackQ = 0 ∧ (JR.runSearch P10 3).fallbackIndex = 0 :=
  c10_theorem P10 3 (by decide) (by decide)
